import Mathlib

/-!
# Verification of the nus-nextbus-redesign-be caching / rate-limiting substrate

Shallow embedding of the repository's cache service (`src/services/cache.ts`),
rate-limiter factory (`src/middleware/rate-limiter.ts`), configuration
(`src/config/index.ts`) and the bus route handlers (`src/routes/bus.ts`),
together with theorems settling the specification's claims about them.

Conventions of the embedding:
* Wall-clock instants (`Date.now()`) are `Nat` milliseconds.
* The JavaScript `Map<string, _>` backing the in-process fallback cache is an
  association list `List (String × _)` with `Map.get/set/delete` semantics.
* The remote Redis store is external to the repository; it is modelled by the
  contract the spec states for it (GET / SET-with-expiry / DEL / KEYS plus
  reachability: an unreachable store makes every command raise, which the
  ioredis client surfaces as a rejected promise, i.e. as `Except.error`).
* `JSON.stringify` / `JSON.parse` are the JS runtime's, not repository code;
  they are modelled as an abstract `Serializer` pair.  A value being
  "JSON-serializable" is expressed by the hypotheses that its serialization is
  a non-empty string and that parsing inverts serialization (deep equality).
* Exceptions are modelled with `Except`: the body of each `try` block is a
  `...Try` definition returning `Except`, and the public operation is the
  surrounding `catch`.
-/

/-- External JSON serialization (the JS runtime's `JSON.stringify` and
`JSON.parse`), modelled abstractly.  `parse` returning `none` models
`JSON.parse` throwing a `SyntaxError`. -/
structure Serializer (α : Type) where
  stringify : α → String
  parse : String → Option α

/-- `config.cache` from `src/config/index.ts`: the `CACHE_ENABLED` switch and
`CACHE_DEFAULT_TTL` (seconds). -/
structure CacheConfig where
  enabled : Bool
  defaultTTL : Nat

/-- One entry of the in-process fallback map of `CacheService`:
`{ value: string; expiresAt: number }` (milliseconds epoch). -/
structure MemEntry where
  value : String
  expiresAt : Nat
deriving Repr, DecidableEq

/-- One entry of the external Redis store: the stored string together with the
expiry instant its `EX` time-to-live translates to. -/
structure RedisEntry where
  value : String
  expiresAt : Nat
deriving Repr, DecidableEq

/-- The external Redis store as seen through the ioredis client:
`reachable = false` makes every command raise (rejected promise). -/
structure RedisState where
  reachable : Bool
  store : List (String × RedisEntry)
deriving Repr, DecidableEq

/-- The mutable state of the `CacheService` singleton: `redis` is `some _`
exactly when the constructor obtained a client (a Redis URL was configured and
`new Redis(...)` did not throw); `memoryCache` is the in-process fallback map. -/
structure CacheState where
  redis : Option RedisState
  memoryCache : List (String × MemEntry)
deriving Repr, DecidableEq

/-- JS `Map.prototype.get` on an association list. -/
def listGet {β : Type} (m : List (String × β)) (k : String) : Option β :=
  (m.find? (fun e => e.1 = k)).map (fun e => e.2)

/-- JS `Map.prototype.set` on an association list: replace in place when the
key is present, append otherwise. -/
def listSet {β : Type} (m : List (String × β)) (k : String) (v : β) :
    List (String × β) :=
  match m with
  | [] => [(k, v)]
  | e :: rest => if e.1 = k then (k, v) :: rest else e :: listSet rest k v

/-- JS `Map.prototype.delete` on an association list. -/
def listDelete {β : Type} (m : List (String × β)) (k : String) :
    List (String × β) :=
  m.filter (fun e => e.1 ≠ k)

/-- `CacheService` constructor (`src/services/cache.ts` lines 9–46): a client
is kept iff a Redis URL is configured and `new Redis(...)` did not throw;
either way the fallback map starts empty. -/
def CacheService.make (redisUrl : Option String) (ctorThrows : Bool)
    (initial : RedisState) : CacheState :=
  match redisUrl with
  | none => { redis := none, memoryCache := [] }
  | some _ =>
      if ctorThrows then { redis := none, memoryCache := [] }
      else { redis := some initial, memoryCache := [] }

/-- Redis `GET` (external contract): raises when unreachable, otherwise
returns the stored string if present and unexpired (native TTL). -/
def redisGet (r : RedisState) (now : Nat) (key : String) :
    Except Unit (Option String) :=
  if r.reachable then
    Except.ok ((listGet r.store key).bind
      (fun e => if now < e.expiresAt then some e.value else none))
  else Except.error ()

/-- Redis `SET key value EX ttl` (external contract): raises when unreachable,
otherwise stores the string with expiry `now + ttl·1000`. -/
def redisSet (r : RedisState) (now : Nat) (key value : String) (ttl : Nat) :
    Except Unit RedisState :=
  if r.reachable then
    Except.ok { r with store := listSet r.store key ⟨value, now + ttl * 1000⟩ }
  else Except.error ()

/-- Redis `DEL key` (external contract). -/
def redisDel (r : RedisState) (key : String) : Except Unit RedisState :=
  if r.reachable then
    Except.ok { r with store := listDelete r.store key }
  else Except.error ()

/-- The `try` block of `CacheService.get` (`cache.ts` lines 53–73): with a
client, Redis `GET` then, when the result string is truthy, `JSON.parse`;
without one, the fallback map with its lazy expiry check.  An `Except.error`
is any raised error: a failed Redis command or a throwing `JSON.parse`. -/
def CacheService.getTry {α : Type} (S : Serializer α) (st : CacheState)
    (now : Nat) (key : String) : Except Unit (Option α × CacheState) :=
  match st.redis with
  | some r =>
      match redisGet r now key with
      | Except.error e => Except.error e
      | Except.ok value =>
          match value with
          | some s =>
              if s ≠ "" then
                match S.parse s with
                | some v => Except.ok (some v, st)
                | none => Except.error ()
              else Except.ok (none, st)
          | none => Except.ok (none, st)
  | none =>
      match listGet st.memoryCache key with
      | some cached =>
          if cached.expiresAt > now then
            match S.parse cached.value with
            | some v => Except.ok (some v, st)
            | none => Except.error ()
          else
            Except.ok (none, { st with memoryCache := listDelete st.memoryCache key })
      | none => Except.ok (none, st)

/-- `CacheService.get` (`cache.ts` lines 48–78): `null` immediately when the
cache is disabled; otherwise the `try` block with every error swallowed into a
`null` result (lines 74–77), leaving the state untouched. -/
def CacheService.get {α : Type} (S : Serializer α) (cfg : CacheConfig)
    (st : CacheState) (now : Nat) (key : String) : Option α × CacheState :=
  if !cfg.enabled then (none, st)
  else
    match CacheService.getTry S st now key with
    | Except.ok res => res
    | Except.error _ => (none, st)

/-- The `try` block of `CacheService.set` (`cache.ts` lines 87–100):
serialize, then Redis `SET ... EX ttl` with a client, else a fallback-map
write with expiry `Date.now() + ttl·1000`. -/
def CacheService.setTry {α : Type} (S : Serializer α) (st : CacheState)
    (now : Nat) (key : String) (value : α) (ttl : Nat) :
    Except Unit CacheState :=
  let serialized := S.stringify value
  match st.redis with
  | some r =>
      match redisSet r now key serialized ttl with
      | Except.error e => Except.error e
      | Except.ok r2 => Except.ok { st with redis := some r2 }
  | none =>
      Except.ok { st with
        memoryCache := listSet st.memoryCache key ⟨serialized, now + ttl * 1000⟩ }

/-- `CacheService.set` (`cache.ts` lines 80–104): a no-op when the cache is
disabled; `ttlSeconds ?? config.cache.defaultTTL` (nullish coalescing, so an
explicit `0` is kept); every error swallowed (lines 101–103). -/
def CacheService.set {α : Type} (S : Serializer α) (cfg : CacheConfig)
    (st : CacheState) (now : Nat) (key : String) (value : α)
    (ttlSeconds : Option Nat) : CacheState :=
  if !cfg.enabled then st
  else
    let ttl := ttlSeconds.getD cfg.defaultTTL
    match CacheService.setTry S st now key value ttl with
    | Except.ok st2 => st2
    | Except.error _ => st

/-- The `try` block of `CacheService.del` (`cache.ts` lines 107–113). -/
def CacheService.delTry (st : CacheState) (key : String) :
    Except Unit CacheState :=
  match st.redis with
  | some r =>
      match redisDel r key with
      | Except.error e => Except.error e
      | Except.ok r2 => Except.ok { st with redis := some r2 }
  | none =>
      Except.ok { st with memoryCache := listDelete st.memoryCache key }

/-- `CacheService.del` (`cache.ts` lines 106–117): best-effort delete, errors
swallowed. -/
def CacheService.del (st : CacheState) (key : String) : CacheState :=
  match CacheService.delTry st key with
  | Except.ok st2 => st2
  | Except.error _ => st

/-- Redis glob matching for `KEYS pattern`, restricted to the `*` wildcard
(the only one this repository's patterns use). -/
def globMatch : List Char → List Char → Bool
  | [], [] => true
  | [], _ :: _ => false
  | '*' :: ps, [] => globMatch ps []
  | '*' :: ps, c :: cs => globMatch ps (c :: cs) || globMatch ('*' :: ps) cs
  | _ :: _, [] => false
  | p :: ps, c :: cs => (p = c) && globMatch ps cs
termination_by ps cs => (ps.length, cs.length)

/-- JS `String.prototype.replace('*', '')`: remove the first `*` only. -/
def removeFirstStar : List Char → List Char
  | [] => []
  | c :: cs => if c = '*' then cs else c :: removeFirstStar cs

/-- `pattern.replace('*', '')` from `cache.ts` line 130. -/
def jsReplaceStar (s : String) : String :=
  String.mk (removeFirstStar s.data)

/-- JS `String.prototype.startsWith` (`key.startsWith(prefix)` at
`cache.ts` line 132), as a character-list prefix test. -/
def jsStartsWith (s pre : String) : Bool :=
  pre.data.isPrefixOf s.data

/-- The `try` block of `CacheService.delPattern` (`cache.ts` lines 120–138):
with a client, `KEYS pattern` then `DEL` of the matches; without one, strip
the first `*` from the pattern and delete every fallback-map key that starts
with the remainder (collect first, then delete). -/
def CacheService.delPatternTry (st : CacheState) (pattern : String) :
    Except Unit CacheState :=
  match st.redis with
  | some r =>
      if r.reachable then
        let keys := (r.store.map (fun e => e.1)).filter
          (fun k => globMatch pattern.data k.data)
        if keys.length > 0 then
          let r2 : RedisState :=
            { r with store := r.store.filter (fun e => !(keys.contains e.1)) }
          Except.ok { st with redis := some r2 }
        else Except.ok st
      else Except.error ()
  | none =>
      let pre := jsReplaceStar pattern
      let keysToDelete := (st.memoryCache.map (fun e => e.1)).filter
        (fun k => jsStartsWith k pre)
      Except.ok { st with
        memoryCache := keysToDelete.foldl (fun m k => listDelete m k) st.memoryCache }

/-- `CacheService.delPattern` (`cache.ts` lines 119–142): best-effort, errors
swallowed. -/
def CacheService.delPattern (st : CacheState) (pattern : String) : CacheState :=
  match CacheService.delPatternTry st pattern with
  | Except.ok st2 => st2
  | Except.error _ => st

/-- `config.rateLimit` from `src/config/index.ts`: `RATE_LIMIT_ENABLED`,
`RATE_LIMIT_WINDOW_MS`, `RATE_LIMIT_MAX_REQUESTS`. -/
structure RateLimitConfig where
  enabled : Bool
  windowMs : Nat
  maxRequests : Nat

/-- `Math.ceil(a / b)` for natural `a`, positive `b`. -/
def jsCeilDiv (a b : Nat) : Nat :=
  (a + b - 1) / b

/-- One fixed-window bucket: the post-increment hit count and the instant the
window expires. -/
structure Bucket where
  count : Nat
  expiresAt : Nat
deriving Repr, DecidableEq

/-- Per-limiter bucket table, keyed by client identity (IP address). -/
structure RLState where
  buckets : List (String × Bucket)
deriving Repr, DecidableEq

/-- The spec's gate decision: `{admitted: true}` or
`{admitted: false, retryAfterSeconds}`. -/
inductive RLResult where
  | admitted
  | rejected (retryAfterSeconds : Nat)
deriving Repr, DecidableEq

/-- Modelled from the spec: the fixed-window counter algorithm of §4.2 — the
algorithm itself is implemented by the external `express-rate-limit` library
(with its Redis or in-process store), not by code under `src/`.  A check looks
up the caller's bucket; a missing or expired bucket starts a fresh window
(`count = 1`, expiry `now + windowMs`); otherwise the counter is incremented.
A post-increment count above `maxRequests` is rejected with
`retryAfterSeconds = ceil(windowMs / 1000)` and the counter is kept (rejected
attempts still consume the window). -/
def rlCheck (windowMs maxRequests : Nat) (st : RLState) (now : Nat)
    (id : String) : RLResult × RLState :=
  let fresh : RLResult × RLState :=
    let st2 : RLState := ⟨listSet st.buckets id ⟨1, now + windowMs⟩⟩
    if 1 > maxRequests then (RLResult.rejected (jsCeilDiv windowMs 1000), st2)
    else (RLResult.admitted, st2)
  match listGet st.buckets id with
  | some b =>
      if now < b.expiresAt then
        let c := b.count + 1
        let st2 : RLState := ⟨listSet st.buckets id ⟨c, b.expiresAt⟩⟩
        if c > maxRequests then (RLResult.rejected (jsCeilDiv windowMs 1000), st2)
        else (RLResult.admitted, st2)
      else fresh
  | none => fresh

/-- What a gate does to one request: call `next()` (pass the request on) or
answer it directly with an HTTP status and a `retryAfter` body field. -/
inductive GateOutcome where
  | pass
  | rejected (status : Nat) (retryAfterSeconds : Nat)
deriving Repr, DecidableEq

/-- A rate-limiting middleware as a state transformer over the bucket table:
given the current table, the current instant and the client identity, produce
an outcome and the new table. -/
def Gate : Type :=
  RLState → Nat → String → GateOutcome × RLState

/-- `createRateLimiter` (`src/middleware/rate-limiter.ts` lines 7–44): with
rate limiting disabled, the returned middleware just calls `next()` and keeps
no state; otherwise a fixed-window limiter over the global configuration whose
rejection handler (lines 24–32) responds `429` with
`retryAfter = Math.ceil(config.rateLimit.windowMs / 1000)`. -/
def createRateLimiter (cfg : RateLimitConfig) : Gate :=
  if !cfg.enabled then fun st _ _ => (GateOutcome.pass, st)
  else fun st now id =>
    match rlCheck cfg.windowMs cfg.maxRequests st now id with
    | (RLResult.admitted, st2) => (GateOutcome.pass, st2)
    | (RLResult.rejected _, st2) =>
        (GateOutcome.rejected 429 (jsCeilDiv cfg.windowMs 1000), st2)

/-- `createStrictRateLimiter` (`rate-limiter.ts` lines 47–86): same shape, but
over per-route `(maxRequests, windowMs)` arguments; its rejection handler
(lines 63–74) responds `429` with `retryAfter = Math.ceil(windowMs / 1000)`. -/
def createStrictRateLimiter (cfg : RateLimitConfig)
    (maxRequests windowMs : Nat) : Gate :=
  if !cfg.enabled then fun st _ _ => (GateOutcome.pass, st)
  else fun st now id =>
    match rlCheck windowMs maxRequests st now id with
    | (RLResult.admitted, st2) => (GateOutcome.pass, st2)
    | (RLResult.rejected _, st2) =>
        (GateOutcome.rejected 429 (jsCeilDiv windowMs 1000), st2)

/-- Run a gate over a sequence of `(time, identity)` checks, collecting the
outcomes. -/
def gateRun (g : Gate) (st : RLState) :
    List (Nat × String) → List GateOutcome × RLState
  | [] => ([], st)
  | (now, id) :: rest =>
      let (out, st2) := g st now id
      let (outs, stF) := gateRun g st2 rest
      (out :: outs, stF)

/-- Run the bare fixed-window check over a sequence of instants for one fixed
identity, collecting the decisions. -/
def rlRun (windowMs maxRequests : Nat) (st : RLState) (id : String) :
    List Nat → List RLResult × RLState
  | [] => ([], st)
  | now :: rest =>
      let (res, st2) := rlCheck windowMs maxRequests st now id
      let (ress, stF) := rlRun windowMs maxRequests st2 id rest
      (res :: ress, stF)

/-- The observable actions of a bus route handler, in program order. -/
inductive BusAction where
  | respond (status : Nat)
  | cacheGet (key : String)
  | upstreamGet (path : String) (routeCode : Option String)
  | cacheSet (key : String)
deriving Repr, DecidableEq

/-- JS truthiness test `!q` for `req.query.x as string`: `undefined` (absent
parameter) and the empty string are falsy. -/
def jsFalsyStr : Option String → Bool
  | none => true
  | some s => s = ""

/-- JS template-literal interpolation of a possibly-`undefined` string. -/
def jsTemplate : Option String → String
  | none => "undefined"
  | some s => s

/-- The `GET /api/bus/pickuppoint` handler (`src/routes/bus.ts` lines 67–92)
as its action trace.  `routeCode` is `req.query.route_code`; `cacheHit` is the
truthiness of `await cacheService.get(cacheKey)`.  The validation branch sends
the 400 response but has no `return`, so the function always falls through to
the cache lookup and, on a miss, to the upstream call and a further
response. -/
def pickuppointHandler (routeCode : Option String) (cacheHit : Bool) :
    List BusAction :=
  let validation : List BusAction :=
    if jsFalsyStr routeCode then [BusAction.respond 400] else []
  let cacheKey := "bus:pickuppoint:" ++ jsTemplate routeCode
  validation ++ [BusAction.cacheGet cacheKey] ++
    (if cacheHit then [BusAction.respond 200]
     else [BusAction.upstreamGet "/PickupPoint" routeCode,
           BusAction.cacheSet cacheKey, BusAction.respond 200])

/-- Number of responses a handler trace attempts on the one request. -/
def responseCount (acts : List BusAction) : Nat :=
  (acts.filter (fun a => match a with
    | BusAction.respond _ => true
    | _ => false)).length

/-- The JS runtime's JSON serialization restricted to booleans
(`JSON.stringify true = "true"`, etc.), used to instantiate `Serializer` at
concrete inputs. -/
def boolSerializer : Serializer Bool where
  stringify := fun b => if b then "true" else "false"
  parse := fun s =>
    if s = "true" then some true
    else if s = "false" then some false
    else none

theorem listGet_listSet_self {β : Type} (m : List (String × β)) (k : String)
    (v : β) : listGet (listSet m k v) k = some v := by
  induction m with
  | nil => simp [listGet, listSet, List.find?]
  | cons e rest ih =>
      by_cases h : e.1 = k
      · simp [listSet, h, listGet, List.find?]
      · simpa [listSet, h, listGet, List.find?] using ih

/-- Set-then-get round trip on the in-process fallback backend. -/
theorem set_get_roundtrip_mem {α : Type} (S : Serializer α) (cfg : CacheConfig)
    (st : CacheState) (now t2 : Nat) (key : String) (v : α) (ttl : Nat)
    (hen : cfg.enabled = true)
    (hrt : S.parse (S.stringify v) = some v)
    (hred : st.redis = none)
    (ht : t2 < now + ttl * 1000) :
    (CacheService.get S cfg (CacheService.set S cfg st now key v (some ttl)) t2 key).1
      = some v := by
  have hset : CacheService.set S cfg st now key v (some ttl) =
      { st with memoryCache :=
          listSet st.memoryCache key ⟨S.stringify v, now + ttl * 1000⟩ } := by
    simp [CacheService.set, CacheService.setTry, hen, hred]
  rw [hset]
  simp [CacheService.get, CacheService.getTry, hen, hred, listGet_listSet_self,
    hrt, ht]

/-- Set-then-get round trip on a reachable shared-store backend. -/
theorem set_get_roundtrip_redis {α : Type} (S : Serializer α) (cfg : CacheConfig)
    (st : CacheState) (r : RedisState) (now t2 : Nat) (key : String) (v : α)
    (ttl : Nat)
    (hen : cfg.enabled = true)
    (hrt : S.parse (S.stringify v) = some v)
    (hne : S.stringify v ≠ "")
    (hred : st.redis = some r)
    (hreach : r.reachable = true)
    (ht : t2 < now + ttl * 1000) :
    (CacheService.get S cfg (CacheService.set S cfg st now key v (some ttl)) t2 key).1
      = some v := by
  have hset : CacheService.set S cfg st now key v (some ttl) =
      { st with redis := some ⟨r.reachable, listSet r.store key ⟨S.stringify v, now + ttl * 1000⟩⟩ } := by
    simp [CacheService.set, CacheService.setTry, hen, hred, redisSet, hreach]
  rw [hset]
  simp [CacheService.get, CacheService.getTry, hen, redisGet, hreach,
    listGet_listSet_self, ht, hne, hrt]

/-- C1: for every key K, JSON-serializable value V (serialization round-trips
and is a non-empty string) and TTL T > 0, with caching enabled and a healthy
backend, `set(K, V, T)` followed by `get(K)` before the TTL elapses returns a
value deep-equal to V — on either backend. -/
theorem c1_cache_round_trip {α : Type} (S : Serializer α) (cfg : CacheConfig)
    (st : CacheState) (now t2 : Nat) (key : String) (v : α) (ttl : Nat)
    (hen : cfg.enabled = true)
    (hrt : S.parse (S.stringify v) = some v)
    (hne : S.stringify v ≠ "")
    (healthy : ∀ r, st.redis = some r → r.reachable = true)
    (ht : t2 < now + ttl * 1000) :
    (CacheService.get S cfg (CacheService.set S cfg st now key v (some ttl)) t2 key).1
      = some v := by
  cases hred : st.redis with
  | none => exact set_get_roundtrip_mem S cfg st now t2 key v ttl hen hrt hred ht
  | some r =>
      exact set_get_roundtrip_redis S cfg st r now t2 key v ttl hen hrt hne hred
        (healthy r hred) ht

/-- Witness for C1 at a concrete input: caching enabled, no shared store,
`set "k" true 5` at t=0 then `get "k"` at t=0 returns `true`. -/
theorem c1_cache_round_trip_witness :
    (CacheService.get boolSerializer ⟨true, 300⟩
      (CacheService.set boolSerializer ⟨true, 300⟩ ⟨none, []⟩ 0 "k" true (some 5))
      0 "k").1 = some true :=
  c1_cache_round_trip boolSerializer ⟨true, 300⟩ ⟨none, []⟩ 0 0 "k" true 5 rfl
    (by decide) (by decide) (fun r hr => Option.noConfusion hr) (by decide)

/-- C3: with the cache-enabled flag false, `get` reports absent and `set`
discards, both leaving every backend state untouched (the flag is decided
before either backend is consulted), so set-then-get always returns absent. -/
theorem c3_disabled_cache_noop {α : Type} (S : Serializer α) (cfg : CacheConfig)
    (hdis : cfg.enabled = false) :
    (∀ st now key, CacheService.get S cfg st now key = (none, st))
    ∧ (∀ st now key v tts, CacheService.set S cfg st now key v tts = st)
    ∧ (∀ st now now2 key v tts,
        (CacheService.get S cfg (CacheService.set S cfg st now key v tts) now2 key).1
          = none) := by
  refine ⟨?_, ?_, ?_⟩ <;> intros <;> simp [CacheService.get, CacheService.set, hdis]

/-- Witness for C3 at a concrete input: cache disabled, set-then-get of
`"k" ↦ true` returns absent. -/
theorem c3_disabled_cache_noop_witness :
    (CacheService.get boolSerializer ⟨false, 300⟩
      (CacheService.set boolSerializer ⟨false, 300⟩ ⟨none, []⟩ 0 "k" true none)
      0 "k").1 = none :=
  (c3_disabled_cache_noop boolSerializer ⟨false, 300⟩ rfl).2.2 ⟨none, []⟩ 0 0 "k"
    true none

/-- C4: an entry of the local fallback backend is never returned at or after
its expiry instant: `get` then reports absent and lazily deletes the entry;
in particular `set(K, V, 1)` followed by `get(K)` 1100 ms later returns
absent. -/
theorem c4_expired_never_returned {α : Type} (S : Serializer α)
    (cfg : CacheConfig) (hen : cfg.enabled = true) :
    (∀ st now key ent, st.redis = none →
        listGet st.memoryCache key = some ent → ent.expiresAt ≤ now →
        CacheService.get S cfg st now key =
          (none, { st with memoryCache := listDelete st.memoryCache key }))
    ∧ (∀ st now key v, st.redis = none →
        (CacheService.get S cfg
          (CacheService.set S cfg st now key v (some 1)) (now + 1100) key).1
          = none) := by
  constructor
  · intro st now key ent hred hent hexp
    simp [CacheService.get, CacheService.getTry, hen, hred, hent,
      Nat.not_lt.mpr hexp]
  · intro st now key v hred
    have hset : CacheService.set S cfg st now key v (some 1) =
        { st with memoryCache :=
            listSet st.memoryCache key ⟨S.stringify v, now + 1 * 1000⟩ } := by
      simp [CacheService.set, CacheService.setTry, hen, hred]
    rw [hset]
    simp [CacheService.get, CacheService.getTry, hen, hred, listGet_listSet_self]

/-- Witness for C4 at a concrete input: an entry expired at t=50 is reported
absent and deleted at t=100, and a 1-second `set` is absent 1100 ms later. -/
theorem c4_expired_never_returned_witness :
    CacheService.get boolSerializer ⟨true, 300⟩ ⟨none, [("k", ⟨"true", 50⟩)]⟩
      100 "k" = (none, ⟨none, []⟩) :=
  (c4_expired_never_returned boolSerializer ⟨true, 300⟩ rfl).1
    ⟨none, [("k", ⟨"true", 50⟩)]⟩ 100 "k" ⟨"true", 50⟩ rfl (by decide) (by decide)

/-- C2 counterexample: with caching enabled and a shared-store client whose
store is unreachable, `set "k" true` followed by `get "k"` returns absent —
the local fallback does NOT service the round-trip, contradicting the claim
that with an unreachable shared store set-then-get round-trips still work. -/
theorem c2_counterexample :
    (CacheService.get boolSerializer ⟨true, 300⟩
      (CacheService.set boolSerializer ⟨true, 300⟩ ⟨some ⟨false, []⟩, []⟩ 0 "k"
        true (some 60)) 0 "k").1 = none
    ∧ (none : Option Bool) ≠ some true := by
  constructor
  · rfl
  · intro h
    exact Option.noConfusion h

/-- C2 (amended): `get`, `set` and `del` never raise — every backend or
deserialization error is swallowed, `get` then reports absent and `set`/`del`
leave the state unchanged; when NO shared-store client exists (store
unconfigured, or client construction threw) the local fallback services
set-then-get round-trips; when a client exists but the store is unreachable,
the operations are swallowed no-ops: `get` reports absent and `set` writes
nothing, so set-then-get returns absent rather than the value. -/
theorem c2_error_swallowing {α : Type} (S : Serializer α) (cfg : CacheConfig)
    (hen : cfg.enabled = true) :
    (∀ st now key, CacheService.getTry S st now key = Except.error () →
        CacheService.get S cfg st now key = (none, st))
    ∧ (∀ st now key v (tts : Option Nat),
        CacheService.setTry S st now key v (tts.getD cfg.defaultTTL)
          = Except.error () →
        CacheService.set S cfg st now key v tts = st)
    ∧ (∀ st key, CacheService.delTry st key = Except.error () →
        CacheService.del st key = st)
    ∧ (∀ st now t2 key v ttl, st.redis = none →
        S.parse (S.stringify v) = some v → t2 < now + ttl * 1000 →
        (CacheService.get S cfg
          (CacheService.set S cfg st now key v (some ttl)) t2 key).1 = some v)
    ∧ (∀ st r now key v tts, st.redis = some r → r.reachable = false →
        CacheService.set S cfg st now key v tts = st
        ∧ CacheService.get S cfg st now key = (none, st)) := by
  refine ⟨?_, ?_, ?_, ?_, ?_⟩
  · intro st now key herr
    simp [CacheService.get, hen, herr]
  · intro st now key v tts herr
    simp [CacheService.set, hen, herr]
  · intro st key herr
    simp [CacheService.del, herr]
  · intro st now t2 key v ttl hred hrt ht
    exact set_get_roundtrip_mem S cfg st now t2 key v ttl hen hrt hred ht
  · intro st r now key v tts hred hun
    constructor
    · simp [CacheService.set, CacheService.setTry, hen, hred, redisSet, hun]
    · simp [CacheService.get, CacheService.getTry, hen, hred, redisGet, hun]

/-- Witness for the amended C2 at a concrete input: with an unreachable
shared store, `set` leaves the state unchanged and `get` reports absent. -/
theorem c2_error_swallowing_witness :
    CacheService.set boolSerializer ⟨true, 300⟩ ⟨some ⟨false, []⟩, []⟩ 0 "k" true
      (some 60) = ⟨some ⟨false, []⟩, []⟩
    ∧ CacheService.get boolSerializer ⟨true, 300⟩ ⟨some ⟨false, []⟩, []⟩ 0 "k"
      = (none, ⟨some ⟨false, []⟩, []⟩) :=
  (c2_error_swallowing boolSerializer ⟨true, 300⟩ rfl).2.2.2.2
    ⟨some ⟨false, []⟩, []⟩ ⟨false, []⟩ 0 "k" true (some 60) rfl rfl

/-- C8: `set` accepts any non-negative `ttlSeconds`, including an explicit 0
(`??` keeps it), and uses the configured default TTL when none is given; on
either healthy backend the write is an ordinary store update, never an
error. -/
theorem c8_ttl_acceptance {α : Type} (S : Serializer α) (cfg : CacheConfig)
    (hen : cfg.enabled = true) :
    (∀ st now key v (tts : Option Nat), st.redis = none →
        CacheService.set S cfg st now key v tts =
          { st with memoryCache := listSet st.memoryCache key ⟨S.stringify v, now + (tts.getD cfg.defaultTTL) * 1000⟩ })
    ∧ (∀ st r now key v (tts : Option Nat), st.redis = some r →
        r.reachable = true →
        CacheService.set S cfg st now key v tts =
          { st with redis := some ⟨r.reachable, listSet r.store key ⟨S.stringify v, now + (tts.getD cfg.defaultTTL) * 1000⟩⟩ }) := by
  constructor
  · intro st now key v tts hred
    simp [CacheService.set, CacheService.setTry, hen, hred]
  · intro st r now key v tts hred hreach
    simp [CacheService.set, CacheService.setTry, hen, hred, redisSet, hreach]

/-- Witness for C8 at concrete inputs: a `set` without a TTL stores with the
default TTL (300 s), and a `set` with TTL 0 is accepted and stores an
immediately-expiring entry. -/
theorem c8_ttl_acceptance_witness :
    CacheService.set boolSerializer ⟨true, 300⟩ ⟨none, []⟩ 0 "k" true none
      = ⟨none, [("k", ⟨"true", 300000⟩)]⟩
    ∧ CacheService.set boolSerializer ⟨true, 300⟩ ⟨none, []⟩ 7 "k" true (some 0)
      = ⟨none, [("k", ⟨"true", 7⟩)]⟩ := by
  constructor
  · have h := (c8_ttl_acceptance boolSerializer ⟨true, 300⟩ rfl).1 ⟨none, []⟩ 0
      "k" true none rfl
    simpa [listSet, boolSerializer] using h
  · have h := (c8_ttl_acceptance boolSerializer ⟨true, 300⟩ rfl).1 ⟨none, []⟩ 7
      "k" true (some 0) rfl
    simpa [listSet, boolSerializer] using h

theorem removeFirstStar_append (l : List Char) (h : ∀ c ∈ l, c ≠ '*') :
    removeFirstStar (l ++ ['*']) = l := by
  induction l with
  | nil => simp [removeFirstStar]
  | cons c cs ih =>
      have hc : c ≠ '*' := h c (by simp)
      have ih2 := ih (fun d hd => h d (by simp [hd]))
      simp [removeFirstStar, hc, ih2]

theorem jsReplaceStar_append_star (P : String) (h : ∀ c ∈ P.data, c ≠ '*') :
    jsReplaceStar (P ++ "*") = P := by
  have hdata : (P ++ "*").data = P.data ++ ['*'] := rfl
  show String.mk (removeFirstStar (P ++ "*").data) = P
  rw [hdata, removeFirstStar_append P.data h]

theorem foldl_listDelete {β : Type} (ks : List String)
    (m : List (String × β)) :
    ks.foldl (fun acc k => listDelete acc k) m
      = m.filter (fun e => !(decide (e.1 ∈ ks))) := by
  induction ks generalizing m with
  | nil => simp
  | cons k ks ih =>
      rw [List.foldl_cons, ih]
      simp only [listDelete, List.filter_filter]
      apply List.filter_congr
      intro e _
      by_cases h1 : e.1 = k <;> by_cases h2 : e.1 ∈ ks <;> simp [h1, h2]

/-- C9: for a pattern `P ++ "*"` with star-free `P`, `delPattern` on the local
fallback backend removes exactly the entries whose key starts with `P`
(linear scan) and leaves every other entry, and the rest of the state,
unchanged. -/
theorem c9_delPattern_scan (st : CacheState) (P : String)
    (hred : st.redis = none) (hstar : ∀ c ∈ P.data, c ≠ '*') :
    CacheService.delPattern st (P ++ "*") =
      { st with memoryCache := st.memoryCache.filter (fun e => !(jsStartsWith e.1 P)) } := by
  simp only [CacheService.delPattern, CacheService.delPatternTry, hred,
    jsReplaceStar_append_star P hstar, foldl_listDelete]
  congr 1
  apply List.filter_congr
  intro e he
  by_cases hs : jsStartsWith e.1 P = true
  · have hmem : e.1 ∈ (st.memoryCache.map (fun e => e.1)).filter
        (fun k => jsStartsWith k P) :=
      List.mem_filter.mpr ⟨List.mem_map.mpr ⟨e, he, rfl⟩, hs⟩
    simp [hmem, hs]
  · have hmem : e.1 ∉ (st.memoryCache.map (fun e => e.1)).filter
        (fun k => jsStartsWith k P) :=
      fun hc => hs (List.mem_filter.mp hc).2
    simp [hmem, hs]

/-- Witness for C9 at a concrete input: deleting by pattern `bus:*` removes
the `bus:`-prefixed entry and keeps the other. -/
theorem c9_delPattern_scan_witness :
    CacheService.delPattern ⟨none, [("bus:a", ⟨"1", 10⟩), ("x", ⟨"2", 10⟩)]⟩
      ("bus:" ++ "*") = ⟨none, [("x", ⟨"2", 10⟩)]⟩ := by
  have h := c9_delPattern_scan ⟨none, [("bus:a", ⟨"1", 10⟩), ("x", ⟨"2", 10⟩)]⟩
    "bus:" rfl (by decide)
  exact h.trans (by decide)

/-- Decisions and final bucket of a run of checks that all fall inside the
current window of an existing bucket: every check increments the counter, and
the k-th check is admitted exactly when the post-increment count stays within
`maxRequests`. -/
theorem rlRun_within (W M : Nat) (id : String) :
    ∀ (ts : List Nat) (st : RLState) (b : Bucket),
      listGet st.buckets id = some b →
      (∀ t ∈ ts, t < b.expiresAt) →
      (rlRun W M st id ts).1 = (List.range ts.length).map
          (fun i => if b.count + i + 1 ≤ M then RLResult.admitted
            else RLResult.rejected (jsCeilDiv W 1000))
      ∧ listGet ((rlRun W M st id ts).2).buckets id
          = some ⟨b.count + ts.length, b.expiresAt⟩ := by
  intro ts
  induction ts with
  | nil =>
      intro st b hb _
      simpa [rlRun] using hb
  | cons t ts ih =>
      intro st b hb hts
      have htb : t < b.expiresAt := hts t (by simp)
      have hb2 : listGet (listSet st.buckets id ⟨b.count + 1, b.expiresAt⟩) id
          = some ⟨b.count + 1, b.expiresAt⟩ := listGet_listSet_self _ _ _
      have hts2 : ∀ u ∈ ts, u < (⟨b.count + 1, b.expiresAt⟩ : Bucket).expiresAt :=
        fun u hu => hts u (by simp [hu])
      have ihres := ih ⟨listSet st.buckets id ⟨b.count + 1, b.expiresAt⟩⟩
        ⟨b.count + 1, b.expiresAt⟩ hb2 hts2
      have hshift : (List.range ts.length).map
            ((fun i => if b.count + i + 1 ≤ M then RLResult.admitted
              else RLResult.rejected (jsCeilDiv W 1000)) ∘ Nat.succ)
          = (List.range ts.length).map
            (fun i => if b.count + 1 + i + 1 ≤ M then RLResult.admitted
              else RLResult.rejected (jsCeilDiv W 1000)) := by
        apply List.map_congr_left
        intro i _
        have harith : b.count + Nat.succ i + 1 = b.count + 1 + i + 1 := by omega
        simp only [Function.comp, harith]
      by_cases hcm : b.count + 1 ≤ M
      · have hrc : rlCheck W M st t id = (RLResult.admitted,
            ⟨listSet st.buckets id ⟨b.count + 1, b.expiresAt⟩⟩) := by
          simp [rlCheck, hb, htb, Nat.not_lt.mpr hcm]
        constructor
        · simp only [rlRun, hrc, List.length_cons, List.range_succ_eq_map,
            List.map_cons, List.map_map, hshift]
          refine congrArg₂ _ ?_ ?_
          · simp [hcm]
          · exact ihres.1
        · simp only [rlRun, hrc]
          simpa [Nat.add_assoc, Nat.add_comm, Nat.add_left_comm] using ihres.2
      · have hrc : rlCheck W M st t id = (RLResult.rejected (jsCeilDiv W 1000),
            ⟨listSet st.buckets id ⟨b.count + 1, b.expiresAt⟩⟩) := by
          simp [rlCheck, hb, htb, Nat.lt_of_not_le hcm]
        constructor
        · simp only [rlRun, hrc, List.length_cons, List.range_succ_eq_map,
            List.map_cons, List.map_map, hshift]
          refine congrArg₂ _ ?_ ?_
          · simp [hcm]
          · exact ihres.1
        · simp only [rlRun, hrc]
          simpa [Nat.add_assoc, Nat.add_comm, Nat.add_left_comm] using ihres.2

/-- C5 (spec-modelled fixed window): from a not-yet-seen identity, a first
check at `t0` and further checks inside the window `[t0, t0 + W)` are admitted
exactly while the running count stays within `maxRequests`; rejected attempts
still count (the final count is the number of checks); and a check at or after
`t0 + W` starts a fresh window and is admitted with a fresh count of 1. -/
theorem c5_fixed_window (W M : Nat) (st : RLState) (id : String) (t0 : Nat)
    (ts : List Nat) (t2 : Nat)
    (hfresh : listGet st.buckets id = none)
    (hts : ∀ t ∈ ts, t < t0 + W)
    (hM : 1 ≤ M)
    (ht2 : t0 + W ≤ t2) :
    (rlRun W M st id (t0 :: ts)).1 = (List.range (ts.length + 1)).map
        (fun i => if i + 1 ≤ M then RLResult.admitted
          else RLResult.rejected (jsCeilDiv W 1000))
    ∧ listGet ((rlRun W M st id (t0 :: ts)).2).buckets id
        = some ⟨ts.length + 1, t0 + W⟩
    ∧ (rlCheck W M (rlRun W M st id (t0 :: ts)).2 t2 id).1 = RLResult.admitted
    ∧ listGet ((rlCheck W M (rlRun W M st id (t0 :: ts)).2 t2 id).2).buckets id
        = some ⟨1, t2 + W⟩ := by
  have hrc0 : rlCheck W M st t0 id = (RLResult.admitted,
      ⟨listSet st.buckets id ⟨1, t0 + W⟩⟩) := by
    simp [rlCheck, hfresh, Nat.not_lt.mpr hM]
  have hb1 : listGet (listSet st.buckets id ⟨1, t0 + W⟩) id
      = some ⟨1, t0 + W⟩ := listGet_listSet_self _ _ _
  have hts1 : ∀ u ∈ ts, u < (⟨1, t0 + W⟩ : Bucket).expiresAt := hts
  have hrun := rlRun_within W M id ts ⟨listSet st.buckets id ⟨1, t0 + W⟩⟩
    ⟨1, t0 + W⟩ hb1 hts1
  have hshift0 : (List.range ts.length).map
        ((fun i => if i + 1 ≤ M then RLResult.admitted
          else RLResult.rejected (jsCeilDiv W 1000)) ∘ Nat.succ)
      = (List.range ts.length).map
        (fun i => if 1 + i + 1 ≤ M then RLResult.admitted
          else RLResult.rejected (jsCeilDiv W 1000)) := by
    apply List.map_congr_left
    intro i _
    have harith : Nat.succ i + 1 = 1 + i + 1 := by omega
    simp only [Function.comp, harith]
  have hdec : (rlRun W M st id (t0 :: ts)).1 = (List.range (ts.length + 1)).map
      (fun i => if i + 1 ≤ M then RLResult.admitted
        else RLResult.rejected (jsCeilDiv W 1000)) := by
    simp only [rlRun, hrc0, List.range_succ_eq_map, List.map_cons, List.map_map,
      hshift0]
    refine congrArg₂ _ ?_ ?_
    · simp [hM]
    · exact hrun.1
  have hstate : listGet ((rlRun W M st id (t0 :: ts)).2).buckets id
      = some ⟨ts.length + 1, t0 + W⟩ := by
    simp only [rlRun, hrc0]
    simpa [Nat.add_comm] using hrun.2
  have hreset : rlCheck W M (rlRun W M st id (t0 :: ts)).2 t2 id
      = (RLResult.admitted,
        ⟨listSet ((rlRun W M st id (t0 :: ts)).2).buckets id ⟨1, t2 + W⟩⟩) := by
    simp [rlCheck, hstate, Nat.not_lt.mpr ht2, Nat.not_lt.mpr hM]
  refine ⟨hdec, hstate, ?_, ?_⟩
  · simp [hreset]
  · simp [hreset, listGet_listSet_self]

/-- Witness for C5 at the spec's concrete scenario: `maxRequests = 3`,
`windowMs = 1000`, four checks inside the window at t = 0, 100, 200, 300 give
admit, admit, admit, reject with `retryAfterSeconds = 1`; a fifth check at
t = 1100 is admitted again with a fresh count of 1. -/
theorem c5_fixed_window_witness :
    (rlRun 1000 3 ⟨[]⟩ "1.2.3.4" [0, 100, 200, 300]).1
      = [RLResult.admitted, RLResult.admitted, RLResult.admitted,
         RLResult.rejected 1]
    ∧ (rlCheck 1000 3 (rlRun 1000 3 ⟨[]⟩ "1.2.3.4" [0, 100, 200, 300]).2
        1100 "1.2.3.4").1 = RLResult.admitted
    ∧ listGet ((rlCheck 1000 3 (rlRun 1000 3 ⟨[]⟩ "1.2.3.4" [0, 100, 200, 300]).2
        1100 "1.2.3.4").2).buckets "1.2.3.4" = some ⟨1, 2100⟩ := by
  have h := c5_fixed_window 1000 3 ⟨[]⟩ "1.2.3.4" 0 [100, 200, 300] 1100 rfl
    (by decide) (by decide) (by decide)
  exact ⟨h.1.trans (by decide), h.2.2.1, h.2.2.2.trans (by decide)⟩

/-- C6: whenever either limiter gate rejects a request, the response is status
429 with a retry-after hint equal to `Math.ceil(windowLengthMs / 1000)` — the
true ceiling: the least number of whole seconds covering the window. -/
theorem c6_reject_response (cfg : RateLimitConfig) :
    (∀ st now id s ra,
        ((createRateLimiter cfg) st now id).1 = GateOutcome.rejected s ra →
        s = 429 ∧ ra = jsCeilDiv cfg.windowMs 1000
        ∧ cfg.windowMs ≤ 1000 * ra ∧ (∀ m, cfg.windowMs ≤ 1000 * m → ra ≤ m))
    ∧ (∀ maxR W st now id s ra,
        ((createStrictRateLimiter cfg maxR W) st now id).1
          = GateOutcome.rejected s ra →
        s = 429 ∧ ra = jsCeilDiv W 1000
        ∧ W ≤ 1000 * ra ∧ (∀ m, W ≤ 1000 * m → ra ≤ m)) := by
  have hceil : ∀ W : Nat, W ≤ 1000 * jsCeilDiv W 1000 := by
    intro W
    simp only [jsCeilDiv]
    omega
  have hmin : ∀ W m : Nat, W ≤ 1000 * m → jsCeilDiv W 1000 ≤ m := by
    intro W m hm
    simp only [jsCeilDiv]
    omega
  constructor
  · intro st now id s ra h
    by_cases he : cfg.enabled
    · simp only [createRateLimiter, he, Bool.not_true, Bool.false_eq_true,
        if_false] at h
      rcases hrc : rlCheck cfg.windowMs cfg.maxRequests st now id with ⟨res, st2⟩
      cases res with
      | admitted => rw [hrc] at h; exact GateOutcome.noConfusion h
      | rejected r0 =>
          rw [hrc] at h
          injection h with h1 h2
          exact ⟨h1.symm, h2.symm, h2 ▸ hceil cfg.windowMs,
            fun m hm => h2 ▸ hmin cfg.windowMs m hm⟩
    · simp only [createRateLimiter, Bool.not_eq_true', he] at h
      simp [Bool.eq_false_iff.mpr he] at h
  · intro maxR W st now id s ra h
    by_cases he : cfg.enabled
    · simp only [createStrictRateLimiter, he, Bool.not_true, Bool.false_eq_true,
        if_false] at h
      rcases hrc : rlCheck W maxR st now id with ⟨res, st2⟩
      cases res with
      | admitted => rw [hrc] at h; exact GateOutcome.noConfusion h
      | rejected r0 =>
          rw [hrc] at h
          injection h with h1 h2
          exact ⟨h1.symm, h2.symm, h2 ▸ hceil W, fun m hm => h2 ▸ hmin W m hm⟩
    · simp [createStrictRateLimiter, Bool.eq_false_iff.mpr he] at h

/-- Witness for C6 at a concrete input: with `maxRequests = 0` and
`windowMs = 1000` the first check is rejected, and the theorem yields status
429 and `retryAfterSeconds = 1 = ceil(1000 / 1000)`. -/
theorem c6_reject_response_witness :
    429 = 429 ∧ 1 = jsCeilDiv 1000 1000
    ∧ 1000 ≤ 1000 * 1 ∧ (∀ m, 1000 ≤ 1000 * m → 1 ≤ m) :=
  (c6_reject_response ⟨true, 1000, 0⟩).1 ⟨[]⟩ 0 "1.2.3.4" 429 1 (by decide)

/-- A pass-through gate admits every check and never touches the state. -/
theorem gateRun_passthrough (st : RLState) (checks : List (Nat × String)) :
    gateRun (fun st _ _ => (GateOutcome.pass, st)) st checks
      = (checks.map (fun _ => GateOutcome.pass), st) := by
  induction checks with
  | nil => simp [gateRun]
  | cons c cs ih =>
      cases c with
      | mk now id => simp [gateRun, ih]

/-- C7: with the rate-limit-enabled flag false, both factories return a pure
pass-through gate: every check of an arbitrarily long sequence, from any
client, is admitted, and the bucket table is never touched. -/
theorem c7_disabled_passthrough (cfg : RateLimitConfig)
    (hdis : cfg.enabled = false) :
    (∀ st checks, gateRun (createRateLimiter cfg) st checks
        = (checks.map (fun _ => GateOutcome.pass), st))
    ∧ (∀ maxR W st checks, gateRun (createStrictRateLimiter cfg maxR W) st checks
        = (checks.map (fun _ => GateOutcome.pass), st)) := by
  have hg : createRateLimiter cfg = fun st _ _ => (GateOutcome.pass, st) := by
    simp [createRateLimiter, hdis]
  have hsg : ∀ maxR W, createStrictRateLimiter cfg maxR W
      = fun st _ _ => (GateOutcome.pass, st) := by
    intro maxR W
    simp [createStrictRateLimiter, hdis]
  constructor
  · intro st checks
    rw [hg]
    exact gateRun_passthrough st checks
  · intro maxR W st checks
    rw [hsg]
    exact gateRun_passthrough st checks

/-- Witness for C7 at a concrete input: limiter disabled, two checks from
different clients both pass and leave the (empty) bucket table unchanged. -/
theorem c7_disabled_passthrough_witness :
    gateRun (createRateLimiter ⟨false, 60000, 120⟩) ⟨[]⟩ [(0, "a"), (5, "b")]
      = ([GateOutcome.pass, GateOutcome.pass], ⟨[]⟩) :=
  ((c7_disabled_passthrough ⟨false, 60000, 120⟩ rfl).1 ⟨[]⟩
    [(0, "a"), (5, "b")]).trans (by decide)

/-- C10: with `route_code` missing, the pickuppoint handler sends the 400
validation response but does not return: it goes on to the cache lookup under
the key `bus:pickuppoint:undefined` and, on a miss, to the upstream call with
the undefined parameter and a second response on the same request. -/
theorem c10_missing_return_after_400 :
    pickuppointHandler none false
      = [BusAction.respond 400, BusAction.cacheGet "bus:pickuppoint:undefined",
         BusAction.upstreamGet "/PickupPoint" none,
         BusAction.cacheSet "bus:pickuppoint:undefined", BusAction.respond 200]
    ∧ responseCount (pickuppointHandler none false) = 2 := by
  constructor
  · rfl
  · rfl
